import Mathlib

/-!
Verification of the warehouse material-vector service (backend-python).

This file gives a shallow embedding, in Lean 4, of the core operations of the
repository's warehouse service and proves the behavioural claims about them:

* the E5 role-prefix preparation (`MaterialService._prepare_text_for_e5`);
* the document builder (`MaterialService.create_text_representation`);
* single-item processing (`MaterialService.process_item`);
* collection initialisation (`MaterialService.init_collection`);
* the batch ingestion pipeline (`MaterialVectorProcessor.process_all_materials`);
* the job registry (`JobService.update_job`);
* similarity search (`MaterialService.search_similar`).

Modelling conventions:
* Python `dict` catalog records become `Record := String → Option Value`
  (`none` = key absent, `some .vNull` = key present with value `None`);
* Python floats are modelled as exact rationals `ℚ`;
* fallible code returns `Except` / `Option`; a `try/except` block becomes a
  `match` on the `Except` value;
* wall-clock times (`time.time()`, durations) are treated as abstract inputs;
  the embedding model (`SentenceTransformer.encode`) and the vector store
  transport are external collaborators and appear as function parameters,
  except for the store's documented upsert-by-id contract which is modelled
  explicitly where a claim needs it.
-/

namespace MfgAI

/-! ### Python string primitives -/

/-- Whitespace predicate used by Python `str.strip()` (ASCII whitespace). -/
def pyWS (c : Char) : Bool :=
  c == ' ' || c == '\t' || c == '\n' || c == '\r' || c == '\x0b' || c == '\x0c'

/-- `str.strip()` on the character list: drop whitespace from both ends. -/
def stripL (l : List Char) : List Char :=
  ((l.dropWhile pyWS).reverse.dropWhile pyWS).reverse

/-- Python `s.strip()`. -/
def pystrip (s : String) : String := ⟨stripL s.data⟩

/-- Python `s.startswith(pre)`. -/
def pyStartsWith (s pre : String) : Bool := pre.data.isPrefixOf s.data

/-- Python `s.split(":", 1)[1]`: everything after the first colon.  In the
source this is only evaluated under a guard that ensures a colon is present
(the string starts with `query:` or `passage:`); with no colon the model
returns `""`. -/
def splitColonTail (s : String) : String :=
  ⟨(s.data.dropWhile (fun c => c != ':')).drop 1⟩

/-- Python `sep.join(parts)`. -/
def pyJoin (sep : String) : List String → String
  | [] => ""
  | [x] => x
  | x :: y :: rest => x ++ sep ++ pyJoin sep (y :: rest)

/-- Python `s.upper()` (per-character, as used on the ASCII field values). -/
def pyUpper (s : String) : String := ⟨s.data.map Char.toUpper⟩

/-- Python `s.lower()` (per-character, as used on the ASCII field values). -/
def pyLower (s : String) : String := ⟨s.data.map Char.toLower⟩

/-! ### The Embedder's role prefixing
(`MaterialService._prepare_text_for_e5`, material_service.py lines 58-78). -/

/-- The prefix-stripping phase of `_prepare_text_for_e5`:
`text = text.strip()`, then, if the stripped text starts with `query:` or
`passage:`, `text = text.split(":", 1)[1].strip()`. -/
def stripRoleMark (text : String) : String :=
  let u := pystrip text
  if pyStartsWith u "query:" || pyStartsWith u "passage:" then
    pystrip (splitColonTail u)
  else u

/-- `MaterialService._prepare_text_for_e5(text, query_type)`: strip any
pre-existing role marker, then prepend the role's marker (`query: ` when
`query_type == "query"`, otherwise `passage: `). -/
def prepare_text_for_e5 (text query_type : String) : String :=
  if query_type == "query" then "query: " ++ stripRoleMark text
  else "passage: " ++ stripRoleMark text

/-! ### Properties of `pystrip` and `stripRoleMark` -/

/-- A character list is "stripped" when neither end is whitespace. -/
def IsStrippedL (l : List Char) : Prop :=
  (∀ c, l.head? = some c → pyWS c = false) ∧
  (∀ c, l.getLast? = some c → pyWS c = false)

/-! ### The Embedder's encode and the Search Service
(`MaterialService._encode_with_e5_prefix` lines 80-106 and
`MaterialService.search_similar` lines 427-465).   The embedding model itself
is an external collaborator: it appears as a parameter `enc`; the source's
normalization settings live inside that collaborator. -/

/-- `MaterialService._encode_with_e5_prefix(text, query_type)` (the
leading-underscore source name is not kept here):
prefix-prepare the text, then call the model's encode. -/
def encode_with_e5_role (enc : String → List ℚ) (text query_type : String) :
    List ℚ :=
  enc (prepare_text_for_e5 text query_type)

/-- A store-side equality condition on a payload field (qdrant `FieldCondition`
with `MatchValue`). -/
structure FieldCondition where
  key : String
  matchValue : String
deriving DecidableEq

/-- A qdrant `Filter(must=[...])`: conjunction of equality conditions. -/
structure QdrantFilter where
  must : List FieldCondition
deriving DecidableEq

/-- Filter construction in `MaterialService.search_similar`: skipped when
`filters` is falsy (absent or empty); each truthy value contributes an equality
condition on `val.strip().lower()`; if no condition survives, no filter is
sent. -/
def mkQueryFilter : Option (List (String × String)) → Option QdrantFilter
  | none => none
  | some fs =>
    if fs.isEmpty then none
    else
      let conds := fs.filterMap fun kv =>
        if kv.2.isEmpty then none
        else some ⟨kv.1, pyLower (pystrip kv.2)⟩
      if conds.isEmpty then none else some ⟨conds⟩

/-- `MaterialService.search_similar(query_text, limit, score_threshold,
filters)`: encode the query with the `query` role and delegate to the vector
store (`store` abstracts `qdrant_client.search`, returning its ranked result
list of an abstract result type `ρ`). -/
def search_similar {ρ : Type} (enc : String → List ℚ)
    (store : List ℚ → Nat → ℚ → Option QdrantFilter → List ρ)
    (query_text : String) (limit : Nat) (score_threshold : ℚ)
    (filters : Option (List (String × String))) : List ρ :=
  store (encode_with_e5_role enc query_text "query") limit score_threshold
    (mkQueryFilter filters)

/-! ### Catalog records and the Document Builder
(`MaterialService.create_text_representation`, material_service.py
lines 166-227). -/

/-- A JSON-ish scalar held in a catalog record: Python `None`, a string, or a
number (other scalars behave like these two under `str()` rendering). -/
inductive Value where
  | vNull
  | vStr (s : String)
  | vInt (n : Int)
deriving DecidableEq

/-- A catalog record: `none` means the key is absent from the mapping,
`some .vNull` means the key is present with value `None`. -/
def Record := String → Option Value

/-- Python `item.get(k, d)`: the default applies only when the key is absent —
a key present with value `None` yields `None`, not the default. -/
def pyGet (r : Record) (k : String) (d : Value) : Value := (r k).getD d

/-- Record update: set (or remove, with `none`) one key. -/
def setField (r : Record) (k : String) (v : Option Value) : Record :=
  fun k' => if k' = k then v else r k'

/-- Rendering of a value inside a Python f-string: `None` renders as the
literal `None`. -/
def pyStrOf : Value → String
  | .vNull => "None"
  | .vStr s => s
  | .vInt n => toString n

/-- The field reads performed by `create_text_representation`, with the
per-field defaults (placeholders) from the source. -/
structure MaterialFields where
  materialNo : Value
  description : Value
  typeV : Value
  category : Value
  stockStatus : Value
  stock : Value
  uom : Value
  minStock : Value
  maxStock : Value
  warehouse : Value
  storageName : Value
  addressRackName : Value
  plant : Value
  supplier : Value
  minOrder : Value
  leadTime : Value
  price : Value
  mrpType : Value
  packaging : Value
deriving DecidableEq

/-- The `item.get(field, placeholder)` reads of
`MaterialService.create_text_representation`, in source order. -/
def readMaterialFields (r : Record) : MaterialFields where
  materialNo := pyGet r "materialNo" (.vStr "N/A")
  description := pyGet r "description" (.vStr "Tanpa deskripsi")
  typeV := pyGet r "type" (.vStr "N/A")
  category := pyGet r "category" (.vStr "N/A")
  stockStatus := pyGet r "stockStatus" (.vStr "unknown")
  stock := pyGet r "stock" (.vStr "N/A")
  uom := pyGet r "uom" (.vStr "")
  minStock := pyGet r "minStock" (.vStr "N/A")
  maxStock := pyGet r "maxStock" (.vStr "N/A")
  warehouse := pyGet r "warehouse" (.vStr "N/A")
  storageName := pyGet r "storageName" (.vStr "N/A")
  addressRackName := pyGet r "addressRackName" (.vStr "N/A")
  plant := pyGet r "plant" (.vStr "N/A")
  supplier := pyGet r "supplier" (.vStr "N/A")
  minOrder := pyGet r "minOrder" (.vStr "N/A")
  leadTime := pyGet r "leadTime" (.vStr "N/A")
  price := pyGet r "price" (.vStr "N/A")
  mrpType := pyGet r "mrpType" (.vStr "N/A")
  packaging := pyGet r "packaging" (.vStr "N/A")

/-- The `try` body of `create_text_representation`.  `item.get('type',
'N/A').upper()` and `item.get('stockStatus', 'unknown').lower()` raise
`AttributeError` (here: `Except.error`) when the retrieved value is not a
string; everything else is f-string rendering, which is total.  The typo
`matrial` in the critical branch is the source's. -/
def renderMaterialBody (f : MaterialFields) : Except Unit String :=
  match f.typeV with
  | .vStr ty =>
    match f.stockStatus with
    | .vStr st =>
      let item_type := pyUpper ty
      let status := pyLower st
      let uomS := pyStrOf f.uom
      let stock_info := pystrip (pyStrOf f.stock ++ " " ++ uomS)
      let p1 := "Material " ++ item_type ++ " " ++ pyStrOf f.materialNo ++ ": "
        ++ pyStrOf f.description
      let p2 := "Tipe material " ++ item_type ++ " kategori " ++ pyStrOf f.category
      let p3 :=
        if status = "critical" then
          "Stok kritis matrial " ++ item_type ++ " " ++ stock_info
            ++ ", material di bawah minimum " ++ pyStrOf f.minStock ++ " " ++ uomS
            ++ ", perlu pengadaan segera"
        else if status = "over" then
          "Stok berlebih material " ++ item_type ++ " " ++ stock_info
            ++ ", material melebihi maksimum " ++ pyStrOf f.maxStock ++ " " ++ uomS
        else if status = "normal" then
          "Stok normal material " ++ item_type ++ " " ++ stock_info
            ++ ", material dalam rentang " ++ pyStrOf f.minStock ++ "-"
            ++ pyStrOf f.maxStock ++ " " ++ uomS
        else
          "Stok material " ++ item_type ++ " " ++ stock_info ++ ", batas "
            ++ pyStrOf f.minStock ++ "-" ++ pyStrOf f.maxStock ++ " " ++ uomS
      let p4 := "Lokasi gudang " ++ pyStrOf f.warehouse ++ " area "
        ++ pyStrOf f.storageName ++ " rak " ++ pyStrOf f.addressRackName
        ++ " plant " ++ pyStrOf f.plant
      let p5 := "Supplier " ++ pyStrOf f.supplier ++ ", minimum order "
        ++ pyStrOf f.minOrder ++ " " ++ uomS ++ ", lead time "
        ++ pyStrOf f.leadTime ++ " hari"
      let p6 := "Harga " ++ pyStrOf f.price ++ ", MRP " ++ pyStrOf f.mrpType
        ++ ", kemasan " ++ pyStrOf f.packaging ++ ", kategori " ++ item_type
      Except.ok (pyJoin " | " [p1, p2, p3, p4, p5, p6])
    | _ => Except.error ()
  | _ => Except.error ()

/-- The `except` fallback of `create_text_representation` (note its distinct
placeholders `Unknown` / `No description`). -/
def materialFallbackText (r : Record) : String :=
  "Material " ++ pyStrOf (pyGet r "materialNo" (.vStr "Unknown")) ++ " "
    ++ pyStrOf (pyGet r "description" (.vStr "No description"))

/-- `MaterialService.create_text_representation(item)`. -/
def create_text_representation (r : Record) : String :=
  match renderMaterialBody (readMaterialFields r) with
  | .ok t => t
  | .error _ => materialFallbackText r

/-- Field name ↦ configured placeholder, as read by the main rendering path. -/
def placeholderTable : List (String × String) :=
  [("materialNo", "N/A"), ("description", "Tanpa deskripsi"), ("type", "N/A"),
   ("category", "N/A"), ("stockStatus", "unknown"), ("stock", "N/A"), ("uom", ""),
   ("minStock", "N/A"), ("maxStock", "N/A"), ("warehouse", "N/A"),
   ("storageName", "N/A"), ("addressRackName", "N/A"), ("plant", "N/A"),
   ("supplier", "N/A"), ("minOrder", "N/A"), ("leadTime", "N/A"),
   ("price", "N/A"), ("mrpType", "N/A"), ("packaging", "N/A")]

/-- A record whose only key is `materialNo`, present but null. -/
def nullMaterialNoRecord : Record :=
  fun k => if k = "materialNo" then some .vNull else none

/-- The record with no keys at all. -/
def emptyRecord : Record := fun _ => none

/-! ### The Vector Index Gateway's collection initialisation
(`MaterialService.init_collection`, material_service.py lines 124-164).
The store's collection list is modelled as the explicit state; the
index-tuning parameters (`hnsw_config`, `optimizers_config`) are fixed
constants in the source and are not observable by any claim, so the modelled
configuration keeps the observable parts: name, vector size, distance. -/

/-- Distance metric of a collection's vector config. -/
inductive Distance where
  | cosine
  | other (tag : String)
deriving DecidableEq

/-- Observable configuration of one store collection. -/
structure CollectionCfg where
  name : String
  size : Nat
  distance : Distance
deriving DecidableEq

/-- The store's collection state (`get_collections().collections`). -/
structure QdrantState where
  collections : List CollectionCfg
deriving DecidableEq

/-- `MaterialService.init_collection`: list collections; if the configured
name is absent, create it with the Embedder's `vector_size` and cosine
distance; if present, read back its configured size and raise `ValueError` on
mismatch (`collection_exists = any(col.name == ...)` and `get_collection` are
modelled together by `find?`). -/
def init_collection (st : QdrantState) (collection_name : String)
    (vector_size : Nat) : Except String QdrantState :=
  match st.collections.find? (fun col => col.name == collection_name) with
  | none =>
      .ok ⟨st.collections ++ [⟨collection_name, vector_size, .cosine⟩]⟩
  | some c =>
      if c.size ≠ vector_size then
        .error "Vector size mismatch - recreate collection or use different name"
      else .ok st

/-! ### The Job Registry (`JobService.update_job`, job_service.py
lines 45-81).  `time.time()` is an abstract input `now`.  The Python check
`not job.get("start_time")` is falsy-based; since `time.time()` is always
positive, it coincides with the `isNone` check modelled here.  Timestamps are
`Option ℚ`, `none` until first assigned. -/

/-- A job record, as initialised by `JobService.create_job`. -/
structure Job where
  status : String
  progress : ℚ
  message : String
  start_time : Option ℚ
  end_time : Option ℚ
  error : Option String
  processed : Nat
  failed : Nat
  total : Nat
deriving DecidableEq

/-- The freshly-created job (`create_job`). -/
def freshJob : Job where
  status := "queued"
  progress := 0
  message := "Job queued"
  start_time := none
  end_time := none
  error := none
  processed := 0
  failed := 0
  total := 0

/-- The optional keyword arguments of `update_job`. -/
structure UpdateArgs where
  status : Option String
  progress : Option ℚ
  message : Option String
  error : Option String
  processed : Option Nat
  failed : Option Nat
  total : Option Nat
deriving DecidableEq

/-- The timestamp phase of `update_job`: `if status == "running" and not
job.get("start_time"): job["start_time"] = now; elif status in ["completed",
"failed"] and not job.get("end_time"): job["end_time"] = now`. -/
def applyTimestamps (now : ℚ) (j : Job) (a : UpdateArgs) : Job :=
  if a.status == some "running" && j.start_time.isNone then
    { j with start_time := some now }
  else if (a.status == some "completed" || a.status == some "failed")
      && j.end_time.isNone then
    { j with end_time := some now }
  else j

/-- The field phase of `update_job`: each keyword that `is not None`
overwrites the stored field. -/
def applyFields (j : Job) (a : UpdateArgs) : Job :=
  { j with
    status := a.status.getD j.status
    progress := a.progress.getD j.progress
    message := a.message.getD j.message
    error := match a.error with | some e => some e | none => j.error
    processed := a.processed.getD j.processed
    failed := a.failed.getD j.failed
    total := a.total.getD j.total }

/-- `JobService.update_job` on one job record (the registry looks the record
up by id first; an unknown id is a logged no-op). -/
def update_job (now : ℚ) (j : Job) (a : UpdateArgs) : Job :=
  applyFields (applyTimestamps now j a) a

/-- The registry-level update: unknown ids leave the registry unchanged. -/
def updateRegistry (now : ℚ) (reg : List (String × Job)) (job_id : String)
    (a : UpdateArgs) : List (String × Job) :=
  if reg.any (fun kv => kv.1 == job_id) then
    reg.map (fun kv => if kv.1 == job_id then (kv.1, update_job now kv.2 a) else kv)
  else reg

/-! ### The Batch Pipeline
(`MaterialVectorProcessor.process_all_materials`, material_processor.py
lines 253-336; `MaterialService.process_all_materials`, material_service.py
lines 320-425, is identical in every aspect modelled here).

The run is modelled after a successful catalog fetch and collection
initialisation, with:
* `materials` the fetched record list;
* `procItem` abstracting `process_item` inside `process_batch_parallel`
  (`none` = the item failed encoding / timed out and is dropped by per-item
  isolation; the surviving results keep batch order);
* `upsertFails` abstracting a chunk-level exception raised by
  `upsert_vectors` (the store call is the only raising operation left inside
  the per-chunk `try`); it is consulted exactly when a non-empty upsert is
  attempted;
* `cb` the progress callback, whose outcome (`Except`) is discarded by the
  `try/except` around the callback invocation;
* float arithmetic on progress percentages modelled exactly over `ℚ`;
* wall-clock duration not modelled (it never feeds back into control flow,
  counters, or `success`).

The `RunState` additionally records, as ghost instrumentation, the sequence of
upsert invocations, the callback invocations (with the job's `failed` counter
snapshotted at that point), and one event per chunk (start index, whether the
chunk raised). -/

/-- The final statistics dictionary (minus the wall-clock duration). -/
structure Summary where
  total : Nat
  processed : Nat
  failed : Nat
  success : Bool
deriving DecidableEq

/-- One progress callback invocation: the arguments passed
(`progress, processed, total`) plus the ghost snapshot of the failed
counter at that moment. -/
structure ProgressReport where
  progress : ℚ
  processed : Nat
  total : Nat
  failedSnapshot : Nat
deriving DecidableEq

/-- Pipeline run state: the two counters plus ghost traces. -/
structure RunState (β : Type) where
  processed : Nat
  failed : Nat
  upserts : List (List β)
  reports : List ProgressReport
  chunkEvents : List (Nat × Bool)
deriving DecidableEq

/-- State at the start of the chunk loop. -/
def initRunState (β : Type) : RunState β := ⟨0, 0, [], [], []⟩

/-- The chunk start indices of `for i in range(0, len(materials),
batch_size)`. -/
def batchIndices (n bs : Nat) : List Nat :=
  List.range' 0 ((n + bs - 1) / bs) bs

/-- `progress = min(((i + batch_size) / len(materials)) * 100, 100)`. -/
def chunkProgress (n bs i : Nat) : ℚ :=
  min (((i + bs : Nat) : ℚ) / (n : ℚ) * 100) 100

/-- One iteration of the chunk loop.  On a chunk-level exception the whole
chunk is counted failed and the iteration `continue`s — skipping the progress
computation and the callback.  Otherwise: upsert if non-empty, add the chunk's
successes to `processed` and its drop-outs to `failed`, compute progress,
invoke the callback and discard its outcome. -/
def pipelineStep {α β : Type} (procItem : α → Option β)
    (upsertFails : List β → Bool) (cb : ℚ → Nat → Nat → Except Unit Unit)
    (materials : List α) (n bs : Nat) (st : RunState β) (i : Nat) : RunState β :=
  let batch := (materials.drop i).take bs
  let vector_data := batch.filterMap procItem
  if !vector_data.isEmpty && upsertFails vector_data then
    { st with
      failed := st.failed + batch.length
      chunkEvents := st.chunkEvents ++ [(i, true)] }
  else
    let st1 : RunState β :=
      { st with
        processed := st.processed + vector_data.length
        failed := st.failed + (batch.length - vector_data.length)
        upserts := if vector_data.isEmpty then st.upserts
          else st.upserts ++ [vector_data]
        chunkEvents := st.chunkEvents ++ [(i, false)] }
    let progress := chunkProgress n bs i
    let _cbOutcome := cb progress st1.processed n
    { st1 with reports := st1.reports ++ [⟨progress, st1.processed, n, st1.failed⟩] }

/-- `process_all_materials` after fetch and collection init: run the chunk
loop and return the final state with the summary
`{total, processed, failed, success := failed < total}`. -/
def process_all_materials {α β : Type} (materials : List α) (batch_size : Nat)
    (procItem : α → Option β) (upsertFails : List β → Bool)
    (cb : ℚ → Nat → Nat → Except Unit Unit) : RunState β × Summary :=
  let n := materials.length
  let st := (batchIndices n batch_size).foldl
    (pipelineStep procItem upsertFails cb materials n batch_size)
    (initRunState β)
  (st, ⟨n, st.processed, st.failed, decide (st.failed < n)⟩)

/-- The chunks `materials[i:i+batch_size]` the loop iterates over. -/
def chunksOf {α : Type} (materials : List α) (bs : Nat) : List (List α) :=
  (batchIndices materials.length bs).map (fun i => (materials.drop i).take bs)

/-- Whether the chunk at start index `i` raises a chunk-level exception. -/
def chunkRaises {α β : Type} (procItem : α → Option β)
    (upsertFails : List β → Bool) (materials : List α) (bs i : Nat) : Bool :=
  let vd := ((materials.drop i).take bs).filterMap procItem
  !vd.isEmpty && upsertFails vd

/-- The 25-record catalog of the C5 scenario. -/
def c5Materials : List Nat := List.range 25

/-- Per-item processing in which exactly record `7` fails encoding. -/
def c5Proc : Nat → Option Nat := fun k => if k == 7 then none else some k

/-! ### Invariants of the chunk loop -/

/-- `min(j / total * 100, 100)`: the progress value reported at cumulative
chunk-end index `j`. -/
def progressCap (n j : Nat) : ℚ := min (((j : Nat) : ℚ) / (n : ℚ) * 100) 100

/-- The loop invariant at the point where the chunk starting at index `i` is
about to be processed: `processed + failed` equals the number of records
attempted so far, every callback so far saw `processed + failed ≤ total` and
the true total, the reported progress values are non-decreasing, and all of
them are at most the progress cap for the current position. -/
def PipelineInv {β : Type} (n i : Nat) (st : RunState β) : Prop :=
  st.processed + st.failed = min i n ∧
  (∀ r ∈ st.reports, r.processed + r.failedSnapshot ≤ n ∧ r.total = n) ∧
  List.Pairwise (· ≤ ·) (st.reports.map ProgressReport.progress) ∧
  (∀ q ∈ st.reports.map ProgressReport.progress, q ≤ progressCap n i)

/-! ### Item processing and upsert-by-id
(`MaterialService.process_item`, material_service.py lines 229-266, and
`upsert_vectors`, lines 287-318). -/

/-- Python `int(x)` on a record value: an int passes through, a numeric string
parses, `None` (`TypeError`) and non-numeric strings (`ValueError`) raise. -/
def pyToInt : Value → Except Unit Int
  | .vInt n => .ok n
  | .vStr s => match s.toInt? with
    | some n => .ok n
    | none => .error ()
  | .vNull => .error ()

/-- The payload dictionary built by `process_item`, in source order.  Each
`item.get(f)` with no default yields `None` for a missing key, so missing and
null collapse to `.vNull` here; `type` is `item.get('type').lower()` (which
requires a present string value — enforced by the caller) and `text` is the
generated document text. -/
def processPayload (r : Record) (text : String) (ty : String) :
    List (String × Value) :=
  [("materialCode", (r "materialNo").getD .vNull),
   ("name", (r "description").getD .vNull),
   ("addressRackName", (r "addressRackName").getD .vNull),
   ("storageName", (r "storageName").getD .vNull),
   ("supplier", (r "supplier").getD .vNull),
   ("plant", (r "plant").getD .vNull),
   ("warehouse", (r "warehouse").getD .vNull),
   ("packaging", (r "packaging").getD .vNull),
   ("packagingUnit", (r "packagingUnit").getD .vNull),
   ("uom", (r "uom").getD .vNull),
   ("price", (r "price").getD .vNull),
   ("type", .vStr (pyLower ty)),
   ("category", (r "category").getD .vNull),
   ("minOrder", (r "minOrder").getD .vNull),
   ("mrpType", (r "mrpType").getD .vNull),
   ("minStock", (r "minStock").getD .vNull),
   ("maxStock", (r "maxStock").getD .vNull),
   ("stock", (r "stock").getD .vNull),
   ("stockStatus", (r "stockStatus").getD .vNull),
   ("leadShift", (r "leadShift").getD .vNull),
   ("leadTime", (r "leadTime").getD .vNull),
   ("stockUpdatedAt", (r "stockUpdatedAt").getD .vNull),
   ("stockUpdatedBy", (r "stockUpdatedBy").getD .vNull),
   ("text", .vStr text)]

/-- The vector-data dictionary produced by `process_item`. -/
structure VectorPoint where
  id : Int
  text : String
  vector : List ℚ
  payload : List (String × Value)
deriving DecidableEq

/-- `MaterialService.process_item(item)`: build the text, encode it with the
`passage` role, and assemble `{id := int(item.get('id', 0)), ...}`.  Any
exception — `int()` on a null or non-numeric id, or `item.get('type').lower()`
on a missing or non-string `type` — is caught and the item yields `None`. -/
def process_item (enc : String → List ℚ) (r : Record) : Option VectorPoint :=
  let text := create_text_representation r
  match pyToInt (pyGet r "id" (.vInt 0)), r "type" with
  | .ok i, some (.vStr ty) =>
      some { id := i, text := text
             vector := enc (prepare_text_for_e5 text "passage")
             payload := processPayload r text ty }
  | _, _ => none

/-- A point as stored in the vector store's collection. -/
structure StoredPoint where
  id : Int
  vector : List ℚ
  payload : List (String × Value)
deriving DecidableEq

/-- Modelled from the spec: the vector store itself is an external
collaborator (its implementation is not in the repository); its documented
upsert contract is insert-or-replace keyed by `id` — "Upsert:
insert-or-replace keyed by id", "`IndexedPoint.id` is unique per collection
(store-enforced)", "re-ingesting the same record with the same id overwrites
the prior point (last-write-wins)". -/
def upsertPoint (store : List StoredPoint) (p : StoredPoint) : List StoredPoint :=
  if store.any (fun q => q.id == p.id) then
    store.map (fun q => if q.id == p.id then p else q)
  else store ++ [p]

/-- `upsert_vectors(vector_data)`: no-op on empty input, otherwise one store
call writing all points (duplicate ids within the call resolve
last-write-wins, as for sequential upserts).  The per-point `PointStruct`
construction try/except never fires in this model (construction is total). -/
def upsert_vectors (store : List StoredPoint) (vector_data : List VectorPoint) :
    List StoredPoint :=
  if vector_data.isEmpty then store
  else vector_data.foldl
    (fun st d => upsertPoint st ⟨d.id, d.vector, d.payload⟩) store

/-- A record with only a `type` field (so `process_item` succeeds) and no
`id`. -/
def c10Rec1 : Record := fun k => if k = "type" then some (.vStr "OP") else none

/-- A second id-less record with a different payload. -/
def c10Rec2 : Record := fun k => if k = "type" then some (.vStr "SP") else none

/-- A trivial embedding model for the C10 witness. -/
def c10Enc : String → List ℚ := fun _ => []

/-- The point `process_item` produces for `c10Rec1`. -/
def c10Point1 : VectorPoint where
  id := 0
  text := create_text_representation c10Rec1
  vector := []
  payload := processPayload c10Rec1 (create_text_representation c10Rec1) "OP"

/-- The point `process_item` produces for `c10Rec2`. -/
def c10Point2 : VectorPoint where
  id := 0
  text := create_text_representation c10Rec2
  vector := []
  payload := processPayload c10Rec2 (create_text_representation c10Rec2) "SP"

/-! ## Theorems -/
example : prepare_text_for_e5 "  hello " "query" = "query: hello" := by decide

example : prepare_text_for_e5 "passage: doc" "query" = "query: doc" := by decide

example : prepare_text_for_e5 "query: query: x" "query" = "query: query: x" := by
  decide

lemma head?_dropWhile_pyWS (l : List Char) :
    ∀ c, (l.dropWhile pyWS).head? = some c → pyWS c = false := by
  induction l with
  | nil => intro c h; simp at h
  | cons a t ih =>
    intro c h
    rw [List.dropWhile_cons] at h
    by_cases ha : pyWS a
    · rw [if_pos ha] at h; exact ih c h
    · rw [if_neg ha] at h
      simp at h
      rw [← h]
      simpa using ha

lemma getLast?_dropWhile_pyWS (l : List Char) :
    ∀ c, (l.dropWhile pyWS).getLast? = some c → l.getLast? = some c := by
  intro c h
  obtain ⟨pre, hpre⟩ := List.dropWhile_suffix (l := l) pyWS
  have hne : l.dropWhile pyWS ≠ [] := by
    intro hnil; rw [hnil] at h; simp at h
  rw [← hpre, List.getLast?_append_of_ne_nil _ hne, h]

lemma isStrippedL_stripL (l : List Char) : IsStrippedL (stripL l) := by
  unfold stripL
  constructor
  · intro c h
    rw [List.head?_reverse] at h
    have h2 := getLast?_dropWhile_pyWS ((l.dropWhile pyWS).reverse) c h
    rw [List.getLast?_reverse] at h2
    exact head?_dropWhile_pyWS l c h2
  · intro c h
    rw [List.getLast?_reverse] at h
    exact head?_dropWhile_pyWS _ c h

/-- On an already-stripped character list, `stripL` is the identity. -/
lemma stripL_eq_self (l : List Char) (h : IsStrippedL l) : stripL l = l := by
  cases l with
  | nil => rfl
  | cons a t =>
    have ha : pyWS a = false := h.1 a rfl
    unfold stripL
    rw [List.dropWhile_cons, if_neg (by simp [ha])]
    obtain ⟨d, ds, hr⟩ : ∃ d ds, (a :: t).reverse = d :: ds := by
      cases hrev : (a :: t).reverse with
      | nil => exact absurd (congrArg List.length hrev) (by simp)
      | cons d ds => exact ⟨d, ds, rfl⟩
    have hd : pyWS d = false := by
      apply h.2
      rw [← List.head?_reverse, hr]; rfl
    rw [hr, List.dropWhile_cons, if_neg (by simp [hd]), ← hr, List.reverse_reverse]

lemma pystrip_eq_self (s : String) (h : IsStrippedL s.data) : pystrip s = s := by
  cases s with
  | mk data => simp [pystrip, stripL_eq_self data h]

/-- `stripRoleMark` always yields a stripped string. -/
lemma isStrippedL_stripRoleMark (t : String) : IsStrippedL (stripRoleMark t).data := by
  unfold stripRoleMark
  by_cases h : pyStartsWith (pystrip t) "query:" || pyStartsWith (pystrip t) "passage:"
  · rw [if_pos h]; exact isStrippedL_stripL _
  · rw [if_neg h]; exact isStrippedL_stripL _

lemma isPrefixOf_append_self (l m : List Char) : l.isPrefixOf (l ++ m) = true := by
  induction l with
  | nil => simp [List.isPrefixOf]
  | cons a t ih => simp [List.isPrefixOf, ih]

/-- Stripping the role marker from a text that is exactly one role marker
followed by an already-stripped remainder gives back the remainder. -/
lemma stripRoleMark_query_append (v : String) (h : IsStrippedL v.data) :
    stripRoleMark ("query: " ++ v) = v := by
  cases v with
  | mk vdata =>
    cases vdata with
    | nil => decide
    | cons c cs =>
      have hdata : ("query: " ++ String.mk (c :: cs)).data
          = 'q' :: 'u' :: 'e' :: 'r' :: 'y' :: ':' :: ' ' :: c :: cs := rfl
      have hstrip : pystrip ("query: " ++ String.mk (c :: cs))
          = "query: " ++ String.mk (c :: cs) := by
        apply pystrip_eq_self
        rw [hdata]
        constructor
        · intro x hx
          simp at hx
          rw [← hx]; rfl
        · intro x hx
          apply h.2
          have hne : (c :: cs) ≠ ([] : List Char) := by simp
          have : ('q' :: 'u' :: 'e' :: 'r' :: 'y' :: ':' :: ' ' :: c :: cs)
              = ['q', 'u', 'e', 'r', 'y', ':', ' '] ++ (c :: cs) := rfl
          rw [this, List.getLast?_append_of_ne_nil _ hne] at hx
          exact hx
      have hguard : pyStartsWith ("query: " ++ String.mk (c :: cs)) "query:" = true := by
        unfold pyStartsWith
        rw [hdata]
        have : ('q' :: 'u' :: 'e' :: 'r' :: 'y' :: ':' :: ' ' :: c :: cs)
            = "query:".data ++ (' ' :: c :: cs) := rfl
        rw [this]
        exact isPrefixOf_append_self _ _
      simp only [stripRoleMark]
      rw [hstrip, hguard]
      simp only [Bool.true_or, if_true]
      have htail : splitColonTail ("query: " ++ String.mk (c :: cs))
          = String.mk (' ' :: c :: cs) := rfl
      rw [htail]
      have hsp : pystrip (String.mk (' ' :: c :: cs)) = pystrip (String.mk (c :: cs)) := rfl
      rw [hsp]
      exact pystrip_eq_self _ h

/-- The `passage:` analogue of `stripRoleMark_query_append`. -/
lemma stripRoleMark_passage_append (v : String) (h : IsStrippedL v.data) :
    stripRoleMark ("passage: " ++ v) = v := by
  cases v with
  | mk vdata =>
    cases vdata with
    | nil => decide
    | cons c cs =>
      have hdata : ("passage: " ++ String.mk (c :: cs)).data
          = 'p' :: 'a' :: 's' :: 's' :: 'a' :: 'g' :: 'e' :: ':' :: ' ' :: c :: cs := rfl
      have hstrip : pystrip ("passage: " ++ String.mk (c :: cs))
          = "passage: " ++ String.mk (c :: cs) := by
        apply pystrip_eq_self
        rw [hdata]
        constructor
        · intro x hx
          simp at hx
          rw [← hx]; rfl
        · intro x hx
          apply h.2
          have hne : (c :: cs) ≠ ([] : List Char) := by simp
          have : ('p' :: 'a' :: 's' :: 's' :: 'a' :: 'g' :: 'e' :: ':' :: ' ' :: c :: cs)
              = ['p', 'a', 's', 's', 'a', 'g', 'e', ':', ' '] ++ (c :: cs) := rfl
          rw [this, List.getLast?_append_of_ne_nil _ hne] at hx
          exact hx
      have hguard : pyStartsWith ("passage: " ++ String.mk (c :: cs)) "passage:" = true := by
        unfold pyStartsWith
        rw [hdata]
        have : ('p' :: 'a' :: 's' :: 's' :: 'a' :: 'g' :: 'e' :: ':' :: ' ' :: c :: cs)
            = "passage:".data ++ (' ' :: c :: cs) := rfl
        rw [this]
        exact isPrefixOf_append_self _ _
      have hguard2 : pyStartsWith ("passage: " ++ String.mk (c :: cs)) "query:" = false := rfl
      simp only [stripRoleMark]
      rw [hstrip, hguard, hguard2]
      simp only [Bool.false_or, if_true]
      have htail : splitColonTail ("passage: " ++ String.mk (c :: cs))
          = String.mk (' ' :: c :: cs) := rfl
      rw [htail]
      have hsp : pystrip (String.mk (' ' :: c :: cs)) = pystrip (String.mk (c :: cs)) := rfl
      rw [hsp]
      exact pystrip_eq_self _ h

lemma pyStartsWith_append (p v : String) : pyStartsWith (p ++ v) p = true := by
  cases p with
  | mk a =>
    cases v with
    | mk b => exact isPrefixOf_append_self a b

lemma not_pyStartsWith_passage_of_query (v : String) :
    pyStartsWith ("query: " ++ v) "passage: " = false := by
  cases v with
  | mk b => rfl

lemma not_pyStartsWith_query_of_passage (v : String) :
    pyStartsWith ("passage: " ++ v) "query: " = false := by
  cases v with
  | mk b => rfl

lemma prepare_text_for_e5_query (t : String) :
    prepare_text_for_e5 t "query" = "query: " ++ stripRoleMark t := rfl

lemma prepare_text_for_e5_passage (t : String) :
    prepare_text_for_e5 t "passage" = "passage: " ++ stripRoleMark t := rfl

/-- Claim C9, as stated, is false: `_prepare_text_for_e5` strips at most one
pre-existing role prefix, so a doubly-prefixed input keeps its inner prefix and
the prepared text begins with two role prefixes, not exactly one.  Dropping the
7 characters of the leading `query: ` marker leaves a remainder that again
starts with `query:`. -/
theorem C9_counterexample :
    prepare_text_for_e5 "query: query: widget" "query" = "query: query: widget" ∧
    pyStartsWith ((prepare_text_for_e5 "query: query: widget" "query").drop 7)
      "query:" = true := by
  decide

/-- Claim C9 (amended): for both roles, the prepared text begins with the
role's prefix, and preparation with a fixed role is idempotent — preparing an
already-prepared text with the same role yields the same string (one
pre-existing role prefix is stripped before prefixing, so no double-prefixing
is introduced; a remainder that itself still carries a role prefix keeps it). -/
theorem C9_prepare_role_mark (t r : String) (h : r = "query" ∨ r = "passage") :
    pyStartsWith (prepare_text_for_e5 t r) (r ++ ": ") = true ∧
    prepare_text_for_e5 (prepare_text_for_e5 t r) r = prepare_text_for_e5 t r := by
  rcases h with h | h <;> subst h
  · constructor
    · rw [prepare_text_for_e5_query]
      exact pyStartsWith_append "query: " _
    · rw [prepare_text_for_e5_query, prepare_text_for_e5_query,
        stripRoleMark_query_append _ (isStrippedL_stripRoleMark t)]
  · constructor
    · rw [prepare_text_for_e5_passage]
      exact pyStartsWith_append "passage: " _
    · rw [prepare_text_for_e5_passage, prepare_text_for_e5_passage,
        stripRoleMark_passage_append _ (isStrippedL_stripRoleMark t)]

/-- Witness for `C9_prepare_role_mark` at a concrete input. -/
theorem C9_witness :
    pyStartsWith (prepare_text_for_e5 " passage: bolt m6 " "query")
      ("query" ++ ": ") = true ∧
    prepare_text_for_e5 (prepare_text_for_e5 " passage: bolt m6 " "query") "query"
      = prepare_text_for_e5 " passage: bolt m6 " "query" :=
  C9_prepare_role_mark " passage: bolt m6 " "query" (Or.inl rfl)

/-- Claim C3: `search_similar` encodes the query text with the `query` role —
the encoded text carries the `query: ` prefix and not the `passage: ` prefix —
and returns exactly the store's result list, unchanged and in the store's
order. -/
theorem C3_search_uses_query_role (ρ : Type) (enc : String → List ℚ)
    (store : List ℚ → Nat → ℚ → Option QdrantFilter → List ρ)
    (q : String) (limit : Nat) (thr : ℚ)
    (filters : Option (List (String × String))) :
    search_similar enc store q limit thr filters
      = store (enc (prepare_text_for_e5 q "query")) limit thr
          (mkQueryFilter filters) ∧
    pyStartsWith (prepare_text_for_e5 q "query") ("query" ++ ": ") = true ∧
    pyStartsWith (prepare_text_for_e5 q "query") ("passage" ++ ": ") = false := by
  refine ⟨rfl, ?_, ?_⟩
  · rw [prepare_text_for_e5_query]
    exact pyStartsWith_append "query: " _
  · rw [prepare_text_for_e5_query]
    exact not_pyStartsWith_passage_of_query _

lemma append_data_ne_nil_left (s t : String) (h : s.data ≠ []) :
    (s ++ t).data ≠ [] := by
  rw [String.data_append]; simp [h]

lemma pyJoin_data_ne_nil (sep x : String) (rest : List String)
    (hx : x.data ≠ []) : (pyJoin sep (x :: rest)).data ≠ [] := by
  cases rest with
  | nil => simpa [pyJoin]
  | cons y r => simp [pyJoin, String.data_append, hx]

lemma renderMaterialBody_ok_ne_nil (f : MaterialFields) (t : String)
    (h : renderMaterialBody f = .ok t) : t.data ≠ [] := by
  unfold renderMaterialBody at h
  cases htv : f.typeV with
  | vNull => rw [htv] at h; exact absurd h (by simp)
  | vInt n => rw [htv] at h; exact absurd h (by simp)
  | vStr ty =>
    rw [htv] at h
    cases hst : f.stockStatus with
    | vNull => rw [hst] at h; exact absurd h (by simp)
    | vInt n => rw [hst] at h; exact absurd h (by simp)
    | vStr st =>
      rw [hst] at h
      simp only [Except.ok.injEq] at h
      rw [← h]
      apply pyJoin_data_ne_nil
      apply append_data_ne_nil_left
      apply append_data_ne_nil_left
      apply append_data_ne_nil_left
      apply append_data_ne_nil_left
      apply append_data_ne_nil_left
      decide

lemma create_text_representation_ne_empty (r : Record) :
    create_text_representation r ≠ "" := by
  have key : (create_text_representation r).data ≠ [] := by
    unfold create_text_representation
    cases hb : renderMaterialBody (readMaterialFields r) with
    | ok t => exact renderMaterialBody_ok_ne_nil _ t hb
    | error e =>
      show (materialFallbackText r).data ≠ []
      unfold materialFallbackText
      apply append_data_ne_nil_left
      apply append_data_ne_nil_left
      apply append_data_ne_nil_left
      decide
  intro he
  exact key (by rw [he])

lemma readMaterialFields_setField (r : Record) (p : String × String)
    (hmem : p ∈ placeholderTable) (hf : r p.1 = none) :
    readMaterialFields (setField r p.1 (some (.vStr p.2))) = readMaterialFields r := by
  fin_cases hmem <;> simp_all [readMaterialFields, pyGet, setField]

/-- Claim C4, as stated, is false on null fields: a record whose `materialNo`
is present but null is rendered with the literal text `None`, not with the
configured placeholder `N/A` — so the output differs from the output for the
same record with the placeholder in that field. -/
theorem C4_counterexample :
    create_text_representation nullMaterialNoRecord
      ≠ create_text_representation
          (setField nullMaterialNoRecord "materialNo" (some (.vStr "N/A"))) := by
  decide

/-- Claim C4 (amended): `create_text_representation` never raises and always
returns a non-empty text; on the main rendering path (no string method applied
to a present non-string `type`/`stockStatus` value), each *missing* field is
rendered as its configured placeholder — filling the missing field with its
placeholder leaves the output unchanged.  A present-but-null field is rendered
as the literal `None` (or, for `type`/`stockStatus`, diverts to the non-empty
fallback text) rather than as the placeholder. -/
theorem C4_document_builder (r : Record) :
    create_text_representation r ≠ "" ∧
    (∀ p ∈ placeholderTable, r p.1 = none →
      (renderMaterialBody (readMaterialFields r)).isOk = true →
      create_text_representation r
        = create_text_representation (setField r p.1 (some (.vStr p.2)))) := by
  refine ⟨create_text_representation_ne_empty r, ?_⟩
  intro p hmem hf hok
  have hr := readMaterialFields_setField r p hmem hf
  unfold create_text_representation
  rw [hr]
  cases hb : renderMaterialBody (readMaterialFields r) with
  | ok t => rfl
  | error e => rw [hb] at hok; simp [Except.isOk, Except.toBool] at hok

/-- Witness for `C4_document_builder`: the all-missing record renders every
placeholder; filling `materialNo` with `N/A` changes nothing. -/
theorem C4_witness :
    create_text_representation emptyRecord ≠ "" ∧
    create_text_representation emptyRecord
      = create_text_representation (setField emptyRecord "materialNo"
          (some (.vStr "N/A"))) :=
  ⟨(C4_document_builder emptyRecord).1,
    (C4_document_builder emptyRecord).2 ("materialNo", "N/A") (by decide) rfl
      (by decide)⟩

/-- Claim C1: `init_collection` creates an absent collection with the given
dimension and cosine distance; on an existing collection it reads the
configured dimension and fails fast with a configuration error exactly when it
disagrees with the Embedder's dimension (never silently tolerated); and the
operation is idempotent: a second call after any successful call succeeds and
changes nothing. -/
theorem C1_init_collection (st : QdrantState) (name : String) (dim : Nat) :
    (st.collections.find? (fun col => col.name == name) = none →
      init_collection st name dim
        = .ok ⟨st.collections ++ [⟨name, dim, .cosine⟩]⟩) ∧
    (∀ c, st.collections.find? (fun col => col.name == name) = some c →
      (c.size ≠ dim → init_collection st name dim
          = .error "Vector size mismatch - recreate collection or use different name") ∧
      (c.size = dim → init_collection st name dim = .ok st)) ∧
    (∀ st', init_collection st name dim = .ok st' →
      init_collection st' name dim = .ok st') := by
  refine ⟨?_, ?_, ?_⟩
  · intro h
    simp only [init_collection, h]
  · intro c hc
    constructor
    · intro hne
      simp only [init_collection, hc]
      rw [if_pos hne]
    · intro heq
      simp only [init_collection, hc]
      rw [if_neg (by simp [heq])]
  · intro st' h
    cases hfind : st.collections.find? (fun col => col.name == name) with
    | none =>
      simp only [init_collection, hfind, Except.ok.injEq] at h
      subst h
      simp [init_collection, List.find?_append, hfind, List.find?]
    | some c =>
      simp only [init_collection, hfind] at h
      by_cases hne : c.size ≠ dim
      · rw [if_pos hne] at h; exact absurd h (by simp)
      · rw [if_neg hne] at h
        simp only [Except.ok.injEq] at h
        subst h
        simp only [init_collection, hfind]
        rw [if_neg hne]

/-- Witness for `C1_init_collection`: creating in an empty store, then the
mismatch error and the idempotent re-run on the created state. -/
theorem C1_witness :
    init_collection ⟨[]⟩ "material_vectors" 384
      = .ok ⟨[⟨"material_vectors", 384, .cosine⟩]⟩ ∧
    init_collection ⟨[⟨"material_vectors", 768, .cosine⟩]⟩ "material_vectors" 384
      = .error "Vector size mismatch - recreate collection or use different name" ∧
    init_collection ⟨[⟨"material_vectors", 384, .cosine⟩]⟩ "material_vectors" 384
      = .ok ⟨[⟨"material_vectors", 384, .cosine⟩]⟩ :=
  ⟨(C1_init_collection ⟨[]⟩ "material_vectors" 384).1 (by decide),
   ((C1_init_collection ⟨[⟨"material_vectors", 768, .cosine⟩]⟩ "material_vectors"
      384).2.1 ⟨"material_vectors", 768, .cosine⟩ (by decide)).1 (by decide),
   ((C1_init_collection ⟨[⟨"material_vectors", 384, .cosine⟩]⟩ "material_vectors"
      384).2.1 ⟨"material_vectors", 384, .cosine⟩ (by decide)).2 rfl⟩

lemma applyFields_start_time (j : Job) (a : UpdateArgs) :
    (applyFields j a).start_time = j.start_time := rfl

lemma applyFields_end_time (j : Job) (a : UpdateArgs) :
    (applyFields j a).end_time = j.end_time := rfl

/-- Claim C7: an update with status `running` sets `start_time` exactly once —
it assigns `now` when unset and every later update (of any status) leaves a
set `start_time` unchanged; an update with a terminal status (`completed` or
`failed`) sets `end_time` exactly once, likewise never re-assigned once set —
in particular no update after a terminal one re-assigns either timestamp —
while counters and message updates still apply regardless of status. -/
theorem C7_update_job_timestamps (now : ℚ) (j : Job) (a : UpdateArgs) :
    ((a.status = some "running" ∧ j.start_time = none) →
      (update_job now j a).start_time = some now) ∧
    (∀ t, j.start_time = some t → (update_job now j a).start_time = some t) ∧
    ((a.status = some "completed" ∨ a.status = some "failed") →
      j.end_time = none → (update_job now j a).end_time = some now) ∧
    (∀ t, j.end_time = some t → (update_job now j a).end_time = some t) ∧
    (∀ p, a.processed = some p → (update_job now j a).processed = p) ∧
    (∀ f, a.failed = some f → (update_job now j a).failed = f) ∧
    (∀ m, a.message = some m → (update_job now j a).message = m) := by
  unfold update_job applyTimestamps
  refine ⟨?_, ?_, ?_, ?_, ?_, ?_, ?_⟩
  · rintro ⟨hs, hst⟩
    rw [applyFields_start_time, hs, hst]
    simp
  · intro t hst
    rw [applyFields_start_time, hst]
    by_cases h1 : a.status == some "running" && (some t : Option ℚ).isNone
    · simp at h1
    · rw [if_neg h1]
      split
      · rfl
      · exact hst
  · intro hterm hend
    rw [applyFields_end_time]
    have h1 : (a.status == some "running") = false := by
      rcases hterm with h | h <;> rw [h] <;> rfl
    rw [hend]
    rw [h1]
    simp only [Bool.false_and, Bool.false_eq_true, if_false]
    have h2 : (a.status == some "completed" || a.status == some "failed") = true := by
      rcases hterm with h | h <;> rw [h] <;> rfl
    rw [h2]
    simp
  · intro t hend
    rw [applyFields_end_time, hend]
    split
    · rfl
    · by_cases h2 : (a.status == some "completed" || a.status == some "failed")
          && (some t : Option ℚ).isNone
      · simp at h2
      · rw [if_neg h2]
        exact hend
  · intro p hp
    simp [applyFields, hp]
  · intro f hf
    simp [applyFields, hf]
  · intro m hm
    simp [applyFields, hm]

/-- Witness for `C7_update_job_timestamps`: a fresh job set `running` at time
5 gets `start_time = 5`; a later terminal update at time 9 keeps
`start_time = 5`, sets `end_time = 9`, and still applies the counter. -/
theorem C7_witness :
    (update_job 5 freshJob
      ⟨some "running", none, none, none, none, none, none⟩).start_time = some 5 ∧
    (update_job 9
      (update_job 5 freshJob ⟨some "running", none, none, none, none, none, none⟩)
      ⟨some "completed", none, none, none, some 24, none, none⟩).start_time
        = some 5 ∧
    (update_job 9
      (update_job 5 freshJob ⟨some "running", none, none, none, none, none, none⟩)
      ⟨some "completed", none, none, none, some 24, none, none⟩).end_time
        = some 9 ∧
    (update_job 9
      (update_job 5 freshJob ⟨some "running", none, none, none, none, none, none⟩)
      ⟨some "completed", none, none, none, some 24, none, none⟩).processed = 24 := by
  have h1 := (C7_update_job_timestamps 5 freshJob
    ⟨some "running", none, none, none, none, none, none⟩).1 ⟨rfl, rfl⟩
  have h2 := (C7_update_job_timestamps 9
    (update_job 5 freshJob ⟨some "running", none, none, none, none, none, none⟩)
    ⟨some "completed", none, none, none, some 24, none, none⟩).2.1 5 h1
  have h3 := ((C7_update_job_timestamps 9
    (update_job 5 freshJob ⟨some "running", none, none, none, none, none, none⟩)
    ⟨some "completed", none, none, none, some 24, none, none⟩).2.2.1)
    (Or.inl rfl) (by decide)
  have h4 := ((C7_update_job_timestamps 9
    (update_job 5 freshJob ⟨some "running", none, none, none, none, none, none⟩)
    ⟨some "completed", none, none, none, some 24, none, none⟩).2.2.2.2.1) 24 rfl
  exact ⟨h1, h2, h3, h4⟩

/-- Claim C2, as stated, is false on the `success` flag: on an empty catalog
the code computes `success = (failed < total) = (0 < 0) = False`, not `True`. -/
theorem C2_counterexample :
    (process_all_materials ([] : List Nat) 10 (fun k => some k) (fun _ => false)
      (fun _ _ _ => .ok ())).2.success = false := by
  decide

/-- Claim C2 (amended): on an empty catalog the pipeline returns the summary
`{total := 0, processed := 0, failed := 0, success := false}` (the code's
`success = failed < total` is false at `0 < 0`), performs no upsert, and
invokes no progress callback. -/
theorem C2_empty_catalog (α β : Type) (procItem : α → Option β)
    (upsertFails : List β → Bool) (cb : ℚ → Nat → Nat → Except Unit Unit)
    (bs : Nat) (hbs : 0 < bs) :
    process_all_materials ([] : List α) bs procItem upsertFails cb
      = (initRunState β, ⟨0, 0, 0, false⟩) := by
  have h0 : (bs - 1) / bs = 0 := Nat.div_eq_of_lt (by omega)
  simp [process_all_materials, batchIndices, h0, initRunState, List.range']

/-- Witness for `C2_empty_catalog` at concrete types and batch size. -/
theorem C2_witness :
    0 < 10 ∧
    process_all_materials ([] : List Nat) 10 (fun k => some k) (fun _ => false)
      (fun _ _ _ => .ok ()) = (initRunState Nat, ⟨0, 0, 0, false⟩) :=
  ⟨by decide,
   C2_empty_catalog Nat Nat (fun k => some k) (fun _ => false)
     (fun _ _ _ => .ok ()) 10 (by decide)⟩

/-- Claim C5: 25 records with `batch_size = 10` are partitioned into 3
consecutive chunks of sizes 10, 10, 5; with exactly record `7` failing
encoding, per-item isolation drops only that record (visible in the upsert
trace) and the final summary is
`{total := 25, processed := 24, failed := 1, success := true}`. -/
theorem C5_batching_scenario :
    (chunksOf c5Materials 10).map List.length = [10, 10, 5] ∧
    (chunksOf c5Materials 10).flatten = c5Materials ∧
    (process_all_materials c5Materials 10 c5Proc (fun _ => false)
      (fun _ _ _ => .ok ())).2 = ⟨25, 24, 1, true⟩ ∧
    (process_all_materials c5Materials 10 c5Proc (fun _ => false)
      (fun _ _ _ => .ok ())).1.upserts
      = [[0, 1, 2, 3, 4, 5, 6, 8, 9],
         [10, 11, 12, 13, 14, 15, 16, 17, 18, 19],
         [20, 21, 22, 23, 24]] := by
  refine ⟨by decide, by decide, by decide, by decide⟩

lemma chunkProgress_eq_cap (n bs i : Nat) :
    chunkProgress n bs i = progressCap n (i + bs) := rfl

lemma progressCap_mono (n : Nat) {i j : Nat} (h : i ≤ j) :
    progressCap n i ≤ progressCap n j := by
  unfold progressCap
  rcases Nat.eq_zero_or_pos n with hn | hn
  · subst hn; simp
  · have hn' : (0 : ℚ) < (n : ℚ) := by exact_mod_cast hn
    apply min_le_min _ le_rfl
    apply mul_le_mul_of_nonneg_right _ (by norm_num)
    exact (div_le_div_iff_of_pos_right hn').2 (by exact_mod_cast h)

lemma pipelineStep_raised {α β : Type} (procItem : α → Option β)
    (upsertFails : List β → Bool) (cb : ℚ → Nat → Nat → Except Unit Unit)
    (materials : List α) (n bs : Nat) (st : RunState β) (i : Nat)
    (h : chunkRaises procItem upsertFails materials bs i = true) :
    pipelineStep procItem upsertFails cb materials n bs st i
      = { st with
          failed := st.failed + ((materials.drop i).take bs).length
          chunkEvents := st.chunkEvents ++ [(i, true)] } := by
  simp only [chunkRaises] at h
  simp only [pipelineStep, h, if_true]

lemma pipelineStep_ok {α β : Type} (procItem : α → Option β)
    (upsertFails : List β → Bool) (cb : ℚ → Nat → Nat → Except Unit Unit)
    (materials : List α) (n bs : Nat) (st : RunState β) (i : Nat)
    (h : chunkRaises procItem upsertFails materials bs i = false) :
    pipelineStep procItem upsertFails cb materials n bs st i
      = { processed := st.processed
            + (((materials.drop i).take bs).filterMap procItem).length
          failed := st.failed + (((materials.drop i).take bs).length
            - (((materials.drop i).take bs).filterMap procItem).length)
          upserts := if (((materials.drop i).take bs).filterMap procItem).isEmpty
            then st.upserts
            else st.upserts ++ [((materials.drop i).take bs).filterMap procItem]
          reports := st.reports ++ [⟨chunkProgress n bs i,
            st.processed + (((materials.drop i).take bs).filterMap procItem).length,
            n,
            st.failed + (((materials.drop i).take bs).length
              - (((materials.drop i).take bs).filterMap procItem).length)⟩]
          chunkEvents := st.chunkEvents ++ [(i, false)] } := by
  simp only [chunkRaises] at h
  simp only [pipelineStep, h, Bool.false_eq_true, if_false]

lemma min_add_min_sub (i bs n : Nat) : min i n + min bs (n - i) = min (i + bs) n := by
  omega

lemma chunk_length_take (materials : List α) (bs i : Nat) :
    ((materials.drop i).take bs).length = min bs (materials.length - i) := by
  simp [List.length_take, List.length_drop]

lemma pipelineStep_inv {α β : Type} (procItem : α → Option β)
    (upsertFails : List β → Bool) (cb : ℚ → Nat → Nat → Except Unit Unit)
    (materials : List α) (bs : Nat) (st : RunState β) (i : Nat)
    (h : PipelineInv materials.length i st) :
    PipelineInv materials.length (i + bs)
      (pipelineStep procItem upsertFails cb materials materials.length bs st i) := by
  obtain ⟨h1, h2, h3, h4⟩ := h
  have hbatch := chunk_length_take materials bs i
  have hvd : (((materials.drop i).take bs).filterMap procItem).length
      ≤ ((materials.drop i).take bs).length := List.length_filterMap_le _ _
  cases hr : chunkRaises procItem upsertFails materials bs i with
  | true =>
    rw [pipelineStep_raised procItem upsertFails cb materials materials.length bs st i hr]
    refine ⟨?_, h2, h3, ?_⟩
    · simp only
      rw [hbatch]
      omega
    · intro q hq
      exact le_trans (h4 q hq) (progressCap_mono _ (Nat.le_add_right i bs))
  | false =>
    rw [pipelineStep_ok procItem upsertFails cb materials materials.length bs st i hr]
    have hattempt : st.processed
          + (((materials.drop i).take bs).filterMap procItem).length
          + (st.failed + (((materials.drop i).take bs).length
            - (((materials.drop i).take bs).filterMap procItem).length))
        = min (i + bs) materials.length := by
      rw [← min_add_min_sub i bs materials.length, ← h1, ← hbatch]
      omega
    refine ⟨?_, ?_, ?_, ?_⟩
    · simpa using hattempt
    · intro r hrm
      simp only [List.mem_append, List.mem_singleton] at hrm
      rcases hrm with hrm | hrm
      · exact h2 r hrm
      · subst hrm
        refine ⟨?_, rfl⟩
        simp only
        rw [hattempt]
        exact Nat.min_le_right _ _
    · simp only [List.map_append, List.map_cons, List.map_nil]
      rw [List.pairwise_append]
      refine ⟨h3, List.pairwise_singleton _ _, ?_⟩
      intro a ha b hb
      simp only [List.mem_singleton] at hb
      subst hb
      calc a ≤ progressCap materials.length i := h4 a ha
        _ ≤ progressCap materials.length (i + bs) :=
          progressCap_mono _ (Nat.le_add_right i bs)
        _ = chunkProgress materials.length bs i := (chunkProgress_eq_cap _ _ _).symm
    · intro q hq
      simp only [List.map_append, List.map_cons, List.map_nil, List.mem_append,
        List.mem_singleton] at hq
      rcases hq with hq | hq
      · exact le_trans (h4 q hq) (progressCap_mono _ (Nat.le_add_right i bs))
      · subst hq
        rw [chunkProgress_eq_cap]

/-- Folding the chunk loop over the index range preserves the invariant. -/
lemma pipeline_fold_inv {α β : Type} (procItem : α → Option β)
    (upsertFails : List β → Bool) (cb : ℚ → Nat → Nat → Except Unit Unit)
    (materials : List α) (bs : Nat) :
    ∀ (m i : Nat) (st : RunState β), PipelineInv materials.length i st →
      PipelineInv materials.length (i + m * bs)
        ((List.range' i m bs).foldl
          (pipelineStep procItem upsertFails cb materials materials.length bs) st) := by
  intro m
  induction m with
  | zero => intro i st h; simpa using h
  | succ k ih =>
    intro i st h
    rw [List.range'_succ, List.foldl_cons]
    have hstep := pipelineStep_inv procItem upsertFails cb materials bs st i h
    have := ih (i + bs)
      (pipelineStep procItem upsertFails cb materials materials.length bs st i) hstep
    have harith : i + bs + k * bs = i + (k + 1) * bs := by ring
    rwa [harith] at this

/-- Trace shape of the chunk loop: one event per chunk index (`continue`
included), a progress report exactly for each non-raising chunk carrying the
code's progress formula, and every new report carrying the true total. -/
lemma pipeline_fold_events {α β : Type} (procItem : α → Option β)
    (upsertFails : List β → Bool) (cb : ℚ → Nat → Nat → Except Unit Unit)
    (materials : List α) (n bs : Nat) :
    ∀ (idxs : List Nat) (st : RunState β),
      ((idxs.foldl (pipelineStep procItem upsertFails cb materials n bs)
          st).chunkEvents
        = st.chunkEvents
          ++ idxs.map (fun i => (i, chunkRaises procItem upsertFails materials bs i))) ∧
      ((idxs.foldl (pipelineStep procItem upsertFails cb materials n bs)
          st).reports.map ProgressReport.progress
        = st.reports.map ProgressReport.progress
          ++ (idxs.filter
              (fun i => !chunkRaises procItem upsertFails materials bs i)).map
              (chunkProgress n bs)) ∧
      (∀ r ∈ (idxs.foldl (pipelineStep procItem upsertFails cb materials n bs)
          st).reports, r ∈ st.reports ∨ r.total = n) := by
  intro idxs
  induction idxs with
  | nil =>
    intro st
    refine ⟨by simp, by simp, ?_⟩
    intro r hr
    exact Or.inl hr
  | cons i rest ih =>
    intro st
    cases hr : chunkRaises procItem upsertFails materials bs i with
    | true =>
      have hst := pipelineStep_raised procItem upsertFails cb materials n bs st i hr
      obtain ⟨e1, e2, e3⟩ :=
        ih (pipelineStep procItem upsertFails cb materials n bs st i)
      refine ⟨?_, ?_, ?_⟩
      · rw [List.foldl_cons, e1, hst]
        simp [hr]
      · rw [List.foldl_cons, e2, hst]
        simp [hr]
      · intro r hrm
        rw [List.foldl_cons] at hrm
        rcases e3 r hrm with hmem | htot
        · rw [hst] at hmem
          exact Or.inl hmem
        · exact Or.inr htot
    | false =>
      have hst := pipelineStep_ok procItem upsertFails cb materials n bs st i hr
      obtain ⟨e1, e2, e3⟩ :=
        ih (pipelineStep procItem upsertFails cb materials n bs st i)
      refine ⟨?_, ?_, ?_⟩
      · rw [List.foldl_cons, e1, hst]
        simp [hr]
      · rw [List.foldl_cons, e2, hst]
        simp [hr]
      · intro r hrm
        rw [List.foldl_cons] at hrm
        rcases e3 r hrm with hmem | htot
        · rw [hst] at hmem
          simp only [List.mem_append, List.mem_singleton] at hmem
          rcases hmem with hmem | hmem
          · exact Or.inl hmem
          · subst hmem
            exact Or.inr rfl
        · exact Or.inr htot

lemma initRunState_inv {β : Type} (n : Nat) :
    PipelineInv (β := β) n 0 (initRunState β) := by
  refine ⟨by simp [initRunState], ?_, ?_, ?_⟩ <;> simp [initRunState]

/-- Claim C6: at every progress callback the job state satisfies
`processed + failed ≤ total`, the reported progress values are monotonically
non-decreasing across successive callbacks, and the final summary also
satisfies `processed + failed ≤ total`. -/
theorem C6_job_counters_invariant (α β : Type) (materials : List α) (bs : Nat)
    (procItem : α → Option β) (upsertFails : List β → Bool)
    (cb : ℚ → Nat → Nat → Except Unit Unit) (hbs : 0 < bs) :
    (∀ r ∈ (process_all_materials materials bs procItem upsertFails cb).1.reports,
      r.processed + r.failedSnapshot
        ≤ (process_all_materials materials bs procItem upsertFails cb).2.total) ∧
    List.Pairwise (· ≤ ·)
      ((process_all_materials materials bs procItem upsertFails cb).1.reports.map
        ProgressReport.progress) ∧
    (process_all_materials materials bs procItem upsertFails cb).2.processed
        + (process_all_materials materials bs procItem upsertFails cb).2.failed
      ≤ (process_all_materials materials bs procItem upsertFails cb).2.total := by
  obtain ⟨g1, g2, g3, g4⟩ := pipeline_fold_inv procItem upsertFails cb materials bs
    ((materials.length + bs - 1) / bs) 0 (initRunState β)
    (initRunState_inv materials.length)
  refine ⟨?_, ?_, ?_⟩
  · intro r hr
    exact (g2 r hr).1
  · exact g3
  · rw [show (process_all_materials materials bs procItem upsertFails cb).2.processed
        + (process_all_materials materials bs procItem upsertFails cb).2.failed
      = min (0 + ((materials.length + bs - 1) / bs) * bs) materials.length from g1]
    exact Nat.min_le_right _ _

/-- Witness for `C6_job_counters_invariant` on a concrete three-record run. -/
theorem C6_witness :
    (process_all_materials ([1, 2, 3] : List Nat) 2 (fun k => some k)
        (fun _ => false) (fun _ _ _ => .ok ())).2.processed
      + (process_all_materials ([1, 2, 3] : List Nat) 2 (fun k => some k)
        (fun _ => false) (fun _ _ _ => .ok ())).2.failed
      ≤ (process_all_materials ([1, 2, 3] : List Nat) 2 (fun k => some k)
        (fun _ => false) (fun _ _ _ => .ok ())).2.total :=
  (C6_job_counters_invariant Nat Nat [1, 2, 3] 2 (fun k => some k)
    (fun _ => false) (fun _ _ _ => .ok ()) (by decide)).2.2

/-- Claim C8, as stated, is false for chunks that raise a chunk-level
exception: the loop `continue`s before the progress computation, so no
callback is invoked for that chunk.  Here 4 records with `batch_size = 2` give
2 chunks, the first chunk's upsert raises, and only 1 callback happens. -/
theorem C8_counterexample :
    (batchIndices ([0, 1, 2, 3] : List Nat).length 2).length = 2 ∧
    ((process_all_materials ([0, 1, 2, 3] : List Nat) 2 (fun k => some k)
      (fun l => decide (0 ∈ l)) (fun _ _ _ => .ok ())).1.reports).length = 1 := by
  decide

/-- Claim C8 (amended): every chunk produces exactly one loop event — a chunk
whose processing raises is counted failed and the loop continues, but its
progress computation and callback are skipped; for every chunk that completes
without a chunk-level exception the pipeline computes
`progress = min((i + batch_size)/total × 100, 100)` — which equals
`min(100, cumulative-items-attempted/total × 100)` — and invokes the callback
with `(progress, processed, total)`; all records are accounted
(`processed + failed = total`); and the callback's outcome (exception or not)
never changes the counters, traces, or summary. -/
theorem C8_progress_reporting (α β : Type) (materials : List α) (bs : Nat)
    (procItem : α → Option β) (upsertFails : List β → Bool)
    (cb : ℚ → Nat → Nat → Except Unit Unit) (hbs : 0 < bs) :
    (process_all_materials materials bs procItem upsertFails cb).1.chunkEvents
      = (batchIndices materials.length bs).map
          (fun i => (i, chunkRaises procItem upsertFails materials bs i)) ∧
    (process_all_materials materials bs procItem upsertFails cb).1.reports.map
        ProgressReport.progress
      = ((batchIndices materials.length bs).filter
          (fun i => !chunkRaises procItem upsertFails materials bs i)).map
          (chunkProgress materials.length bs) ∧
    (∀ r ∈ (process_all_materials materials bs procItem upsertFails cb).1.reports,
      r.total = materials.length) ∧
    (∀ i ∈ batchIndices materials.length bs,
      chunkProgress materials.length bs i
        = min (((min (i + bs) materials.length : Nat) : ℚ)
            / ((materials.length : Nat) : ℚ) * 100) 100) ∧
    (process_all_materials materials bs procItem upsertFails cb).2.processed
        + (process_all_materials materials bs procItem upsertFails cb).2.failed
      = materials.length ∧
    (∀ cb₁ cb₂ : ℚ → Nat → Nat → Except Unit Unit,
      process_all_materials materials bs procItem upsertFails cb₁
        = process_all_materials materials bs procItem upsertFails cb₂) := by
  obtain ⟨e1, e2, e3⟩ := pipeline_fold_events procItem upsertFails cb materials
    materials.length bs (batchIndices materials.length bs) (initRunState β)
  obtain ⟨g1, g2, g3, g4⟩ := pipeline_fold_inv procItem upsertFails cb materials bs
    ((materials.length + bs - 1) / bs) 0 (initRunState β)
    (initRunState_inv materials.length)
  refine ⟨?_, ?_, ?_, ?_, ?_, ?_⟩
  · simpa [initRunState] using e1
  · simpa [initRunState] using e2
  · intro r hr
    rcases e3 r hr with hmem | htot
    · simp [initRunState] at hmem
    · exact htot
  · intro i hi
    simp only [batchIndices, List.mem_range'] at hi
    obtain ⟨k, hk, hik⟩ := hi
    have hnb : ((materials.length + bs - 1) / bs) * bs ≤ materials.length + bs - 1 :=
      Nat.div_mul_le_self (materials.length + bs - 1) bs
    have hkk : (k + 1) * bs ≤ ((materials.length + bs - 1) / bs) * bs :=
      Nat.mul_le_mul_right bs hk
    rw [Nat.succ_mul] at hkk
    rw [Nat.zero_add, Nat.mul_comm bs k] at hik
    have hin : i < materials.length := by omega
    rcases Nat.le_total (i + bs) materials.length with hle | hge
    · rw [Nat.min_eq_left hle]
      rfl
    · rw [Nat.min_eq_right hge]
      have hnpos : 0 < materials.length := by omega
      have hn0 : (0 : ℚ) < (materials.length : ℚ) := by exact_mod_cast hnpos
      unfold chunkProgress
      rw [div_self (ne_of_gt hn0), one_mul, min_self]
      apply min_eq_right
      calc (100 : ℚ) = 1 * 100 := (one_mul _).symm
        _ ≤ (((i + bs : Nat) : ℚ) / (materials.length : ℚ)) * 100 := by
            apply mul_le_mul_of_nonneg_right _ (by norm_num)
            rw [le_div_iff₀ hn0, one_mul]
            exact_mod_cast hge
  · have hnb : bs * ((materials.length + bs - 1) / bs) ≥ materials.length := by
      have hdm := Nat.div_add_mod (materials.length + bs - 1) bs
      have hmod : (materials.length + bs - 1) % bs < bs := Nat.mod_lt _ hbs
      omega
    rw [show (process_all_materials materials bs procItem upsertFails cb).2.processed
          + (process_all_materials materials bs procItem upsertFails cb).2.failed
        = min (0 + ((materials.length + bs - 1) / bs) * bs) materials.length from g1]
    rw [Nat.zero_add]
    exact Nat.min_eq_right (by rw [Nat.mul_comm] at hnb; omega)
  · intro cb₁ cb₂
    rfl

/-- Witness for `C8_progress_reporting` on a concrete run: 3 records in 2
chunks, all attempted. -/
theorem C8_witness :
    (process_all_materials ([5, 6, 7] : List Nat) 2 (fun k => some k)
        (fun _ => false) (fun _ _ _ => .ok ())).2.processed
      + (process_all_materials ([5, 6, 7] : List Nat) 2 (fun k => some k)
        (fun _ => false) (fun _ _ _ => .ok ())).2.failed
      = ([5, 6, 7] : List Nat).length :=
  (C8_progress_reporting Nat Nat [5, 6, 7] 2 (fun k => some k) (fun _ => false)
    (fun _ _ _ => .ok ()) (by decide)).2.2.2.2.1

lemma find?_upsertPoint (store : List StoredPoint) (p : StoredPoint) :
    (upsertPoint store p).find? (fun q => q.id == p.id) = some p := by
  induction store with
  | nil => simp [upsertPoint, List.find?]
  | cons q t ih =>
    by_cases hq : (q.id == p.id) = true
    · unfold upsertPoint
      rw [if_pos (by simp [List.any_cons, hq])]
      simp only [List.map_cons, hq, if_true]
      rw [List.find?_cons_of_pos _ (by simp)]
    · unfold upsertPoint
      by_cases ht : t.any (fun q => q.id == p.id) = true
      · rw [if_pos (by simp [List.any_cons, ht])]
        simp only [List.map_cons, hq, if_false]
        rw [List.find?_cons_of_neg _ (by simpa using hq)]
        have := ih
        unfold upsertPoint at this
        rwa [if_pos ht] at this
      · rw [if_neg (by simp [List.any_cons]; exact ⟨by simpa using hq, by simpa using ht⟩)]
        rw [List.cons_append, List.find?_cons_of_neg _ (by simpa using hq)]
        have := ih
        unfold upsertPoint at this
        rwa [if_neg ht] at this

lemma ids_map_upsertPoint_of_any (store : List StoredPoint) (p : StoredPoint)
    (h : store.any (fun q => q.id == p.id) = true) :
    (upsertPoint store p).map StoredPoint.id = store.map StoredPoint.id := by
  unfold upsertPoint
  rw [if_pos h, List.map_map]
  apply List.map_congr_left
  intro q _
  simp only [Function.comp_apply]
  by_cases hq : (q.id == p.id) = true
  · rw [if_pos hq]
    exact (show q.id = p.id from by simpa using hq).symm
  · rw [if_neg hq]

lemma nodup_ids_upsertPoint (store : List StoredPoint) (p : StoredPoint)
    (h : (store.map StoredPoint.id).Nodup) :
    ((upsertPoint store p).map StoredPoint.id).Nodup := by
  by_cases hany : store.any (fun q => q.id == p.id) = true
  · rwa [ids_map_upsertPoint_of_any store p hany]
  · unfold upsertPoint
    rw [if_neg hany, List.map_append]
    simp only [List.map_cons, List.map_nil]
    rw [List.nodup_append]
    refine ⟨h, List.nodup_singleton _, ?_⟩
    intro x hx
    simp only [List.mem_singleton]
    intro hxp
    subst hxp
    simp only [List.mem_map] at hx
    obtain ⟨q, hqmem, hqid⟩ := hx
    apply hany
    rw [List.any_eq_true]
    exact ⟨q, hqmem, by simp [hqid]⟩

lemma count_id_le_one (store : List StoredPoint) (v : Int)
    (h : (store.map StoredPoint.id).Nodup) :
    (store.filter (fun q => q.id == v)).length ≤ 1 := by
  induction store with
  | nil => simp
  | cons q t ih =>
    simp only [List.map_cons, List.nodup_cons] at h
    by_cases hq : (q.id == v) = true
    · rw [List.filter_cons, if_pos hq]
      have hqv : q.id = v := by simpa using hq
      have hnone : t.filter (fun x => x.id == v) = [] := by
        rw [List.filter_eq_nil_iff]
        intro x hx hxv
        apply h.1
        rw [List.mem_map]
        refine ⟨x, hx, ?_⟩
        rw [show x.id = v from by simpa using hxv, hqv]
      rw [hnone]
      simp
    · rw [List.filter_cons, if_neg (by simpa using hq)]
      exact ih h.2

lemma process_item_default_id (enc : String → List ℚ) (r : Record)
    (p : VectorPoint) (h : process_item enc r = some p) (hid : r "id" = none) :
    p.id = 0 := by
  unfold process_item at h
  rw [show pyGet r "id" (.vInt 0) = .vInt 0 from by simp [pyGet, hid]] at h
  cases hty : r "type" with
  | none => rw [hty] at h; simp [pyToInt] at h
  | some v =>
    rw [hty] at h
    cases v with
    | vNull => simp [pyToInt] at h
    | vInt n => simp [pyToInt] at h
    | vStr ty =>
      simp only [pyToInt, Option.some.injEq] at h
      rw [← h]

/-- Claim C10: every record lacking an `id` field is processed into a point
with id `int(0) = 0`; two such records in the same ingestion therefore share
the upsert key `0`, and after upserting both, the later record's point is the
one stored at id `0` (a silent overwrite), with at most one id-`0` point
remaining in a collection whose ids were unique. -/
theorem C10_default_id_overwrite (enc : String → List ℚ) (r1 r2 : Record)
    (store : List StoredPoint) (p1 p2 : VectorPoint)
    (h1 : r1 "id" = none) (h2 : r2 "id" = none)
    (hp1 : process_item enc r1 = some p1) (hp2 : process_item enc r2 = some p2) :
    p1.id = 0 ∧ p2.id = 0 ∧
    (upsert_vectors store [p1, p2]).find? (fun q => q.id == 0)
      = some ⟨p2.id, p2.vector, p2.payload⟩ ∧
    ((store.map StoredPoint.id).Nodup →
      ((upsert_vectors store [p1, p2]).filter (fun q => q.id == 0)).length ≤ 1) := by
  have hid1 : p1.id = 0 := process_item_default_id enc r1 p1 hp1 h1
  have hid2 : p2.id = 0 := process_item_default_id enc r2 p2 hp2 h2
  have hu : upsert_vectors store [p1, p2]
      = upsertPoint (upsertPoint store ⟨p1.id, p1.vector, p1.payload⟩)
          ⟨p2.id, p2.vector, p2.payload⟩ := rfl
  refine ⟨hid1, hid2, ?_, ?_⟩
  · rw [hu, hid2]
    exact find?_upsertPoint _ ⟨0, p2.vector, p2.payload⟩
  · intro hnd
    rw [hu]
    exact count_id_le_one _ 0
      (nodup_ids_upsertPoint _ _ (nodup_ids_upsertPoint _ _ hnd))

/-- Witness for `C10_default_id_overwrite`: two concrete id-less records both
map to id 0; ingesting both into an empty collection leaves exactly the later
point at id 0. -/
theorem C10_witness :
    (upsert_vectors [] [c10Point1, c10Point2]).find? (fun q => q.id == 0)
      = some ⟨c10Point2.id, c10Point2.vector, c10Point2.payload⟩ ∧
    ((upsert_vectors [] [c10Point1, c10Point2]).filter
      (fun q => q.id == 0)).length ≤ 1 :=
  have h := C10_default_id_overwrite c10Enc c10Rec1 c10Rec2 [] c10Point1 c10Point2
    rfl rfl rfl rfl
  ⟨h.2.2.1, h.2.2.2 (by simp)⟩

end MfgAI
